import Mathlib

/-!
Verification of the retro-tournament-v2 live media relay.

Server side (src/server/src/index.ts together with the ScreenCapture class
it imports): a WebSocket hub holding a set of clients, and a capture
session that spawns a single ffmpeg producer process.  We embed the
mutable state of the ScreenCapture instance (the ffmpeg child-process
handle and the isRunning flag) and of the server module (the clients set
and the isCapturing flag) as a record, OS processes being tracked by pid
in an explicit list of currently alive producer processes.  Each event
handler of the source becomes one branch of a step function; the step
function also emits a log of externally visible actions (process spawns,
kill signals, start calls, stop calls, sends to clients).

Producer termination is asynchronous, as in the source: stop() only
sends SIGTERM, nulls the handle and clears the flag, and the process
stays alive until its own exit; each spawned process carries the close
and error handlers the source attaches to it, so a close event (exitEv
of that pid) fires once when that process dies — also after a kill —
and unconditionally clears isRunning and, through the emitted close,
isCapturing, whichever process it came from; the per-process error
handler (ffmpegError of a spawned pid) clears isRunning only.  The
data handler broadcasts unconditionally, with no running check.

Client side (src/client/src/hooks/useStreamPlayer.ts): the hook's refs
and React state become a record; appendNextChunk, the updateend listener,
ws.onmessage, cleanup and connect become functions on that record.
The decode buffer (MSE SourceBuffer) is embedded as an updating flag plus
the buffered time ranges (rational endpoints); whether an appendBuffer or
remove call throws is an oracle bit carried by the triggering event, and
the buffered ranges resulting from a completed operation are carried by
the updateend event, since both are decided by the environment.
-/

namespace RetroTournament

/-! ## Server data model -/

/-- State of the ScreenCapture instance: the ffmpeg child-process handle
(`this.ffmpeg`, a pid when non-null) and the `isRunning` flag. -/
structure CapState where
  ffmpeg : Option Nat
  isRunning : Bool
deriving DecidableEq, Repr

/-- Whole server state: capture state, pids of ffmpeg processes presently
alive in the OS, pids of every process ever spawned (their handlers stay
attached for life), a counter producing fresh pids, the `clients` set (in
insertion order), the ids of connections whose socket is no longer OPEN,
and the server module's `isCapturing` flag. -/
structure SrvState where
  cap : CapState
  alive : List Nat
  spawned : List Nat
  nextPid : Nat
  clients : List Nat
  closedConns : List Nat
  isCapturing : Bool
deriving DecidableEq, Repr

/-- Externally visible server actions. -/
inductive SAct where
  | spawn (pid : Nat)
  | killSig (pid : Nat)
  | startCall
  | stopCall
  | send (c : Nat) (chunk : Nat)
deriving DecidableEq, Repr

/-- Set-insert preserving insertion order, as `clients.add(ws)` does. -/
def addConn (l : List Nat) (c : Nat) : List Nat :=
  if c ∈ l then l else l ++ [c]

namespace ScreenCapture

/-- Source ScreenCapture.start(): no-op when `isRunning`; otherwise spawn
ffmpeg, record the handle and set `isRunning`. -/
def start (s : SrvState) : SrvState × List SAct :=
  if s.cap.isRunning then (s, [])
  else
    let pid := s.nextPid
    ({ s with
        cap := { ffmpeg := some pid, isRunning := true }
        alive := s.alive ++ [pid]
        spawned := s.spawned ++ [pid]
        nextPid := pid + 1 }, [SAct.spawn pid])

/-- Source ScreenCapture.stop(): when the handle is non-null, send
SIGTERM, null the handle and clear `isRunning`; otherwise do nothing.
The signal only requests termination — the process stays alive until
its asynchronous exit (the exitEv of its pid). -/
def stop (s : SrvState) : SrvState × List SAct :=
  match s.cap.ffmpeg with
  | some p =>
      ({ s with
          cap := { ffmpeg := none, isRunning := false } }, [SAct.killSig p])
  | none => (s, [])

end ScreenCapture

/-- Server events: a new WebSocket connection, a connection's close
handler firing, a connection's error handler firing, the underlying
socket of a connection leaving the OPEN state, a data chunk from a
producer's stdout, the close handler of the producer process with pid p
firing (that process — current or killed earlier — has died), and the
error handler of a spawned producer process firing. -/
inductive SEv where
  | connect (c : Nat)
  | closeEv (c : Nat)
  | errorEv (c : Nat)
  | sockClosed (c : Nat)
  | dataEv (chunk : Nat)
  | exitEv (p : Nat)
  | ffmpegError (p : Nat)
deriving DecidableEq, Repr

/-- One server event-loop callback. -/
def serverStep (s : SrvState) : SEv → SrvState × List SAct
  | SEv.connect c =>
      let s1 := { s with clients := addConn s.clients c }
      if s1.isCapturing then (s1, [])
      else
        let r := ScreenCapture.start s1
        ({ r.1 with isCapturing := true }, SAct.startCall :: r.2)
  | SEv.closeEv c =>
      let s1 := { s with
        clients := s.clients.erase c
        closedConns := addConn s.closedConns c }
      if s1.clients.isEmpty && s1.isCapturing then
        let r := ScreenCapture.stop s1
        ({ r.1 with isCapturing := false }, SAct.stopCall :: r.2)
      else (s1, [])
  | SEv.errorEv c =>
      ({ s with clients := s.clients.erase c }, [])
  | SEv.sockClosed c =>
      ({ s with closedConns := addConn s.closedConns c }, [])
  | SEv.dataEv chunk =>
      (s, s.clients.filterMap fun c =>
        if c ∈ s.closedConns then none else some (SAct.send c chunk))
  | SEv.exitEv p =>
      if p ∈ s.alive then
        ({ s with
            alive := s.alive.erase p
            cap := { s.cap with isRunning := false }
            isCapturing := false }, [])
      else (s, [])
  | SEv.ffmpegError p =>
      if p ∈ s.spawned then
        ({ s with cap := { s.cap with isRunning := false } }, [])
      else (s, [])

/-- Server state at process start. -/
def initServer : SrvState :=
  { cap := { ffmpeg := none, isRunning := false }
    alive := []
    spawned := []
    nextPid := 0
    clients := []
    closedConns := []
    isCapturing := false }

/-- Run a sequence of events, accumulating the emitted actions. -/
def runServerFrom : SrvState → List SEv → SrvState × List SAct
  | s, [] => (s, [])
  | s, e :: r =>
      let p := serverStep s e
      let q := runServerFrom p.1 r
      (q.1, p.2 ++ q.2)

/-- Server state reached from startup by a sequence of events. -/
def serverRun (evs : List SEv) : SrvState := (runServerFrom initServer evs).1

/-! ## Client data model -/

/-- The MSE SourceBuffer as the client observes it: its `updating` flag
(true while an appendBuffer or remove operation is pending) and its
`buffered` time ranges, each a pair of rational endpoints in seconds. -/
structure SB where
  updating : Bool
  ranges : List (ℚ × ℚ)
deriving DecidableEq, Repr

/-- State of the useStreamPlayer hook: the refs (wsRef — `some true`
when the socket is OPEN, `some false` when the ref is non-null but the
socket closed, `none` when null; mediaSourceRef — `some true` when the
MediaSource readyState is `open`; sourceBufferRef; queueRef;
isAppendingRef; bytesReceivedRef) and the React state (isConnected,
isBuffering, error, stats), plus the video element's paused flag. -/
structure ClientState where
  wsOpen : Option Bool
  msOpen : Option Bool
  sb : Option SB
  queue : List Nat
  isAppending : Bool
  bytesReceived : Nat
  isConnected : Bool
  isBuffering : Bool
  error : Option String
  statsBuf : ℚ
  statsBytes : Nat
  paused : Bool
deriving DecidableEq, Repr

/-- Externally visible client actions: a segment pushed onto the queue,
an appendBuffer call that was accepted, an appendBuffer call that threw,
a SourceBuffer.remove call that was accepted, a remove call that threw,
an operation's updateend (completion callback), video.play(), ws.close()
and mediaSource.endOfStream(). -/
inductive Act where
  | enqueue (seg : Nat)
  | submit (seg : Nat)
  | submitFail (seg : Nat)
  | removeCall (a b : ℚ)
  | removeFailAct (a b : ℚ)
  | complete
  | play
  | wsClose
  | endOfStream
deriving DecidableEq, Repr

/-- Whether an appendBuffer call throws is decided by the decode buffer
(environment); the caller sees it as an exception. -/
def appendBufferOp (fail : Bool) : Except Unit Unit :=
  if fail then Except.error () else Except.ok ()

/-- Whether a SourceBuffer.remove call throws, likewise. -/
def removeOp (fail : Bool) : Except Unit Unit :=
  if fail then Except.error () else Except.ok ()

/-- Source appendNextChunk: bail out when there is no source buffer, an
append is already in flight, or the queue is empty; bail out when the
buffer is updating; otherwise set the in-flight flag, shift the head
segment off the queue and submit it with appendBuffer.  When
appendBuffer throws: clear the in-flight flag and try to recover by
removing the window [start, start + 5] of the oldest buffered range,
but only when the buffer is not updating and that range spans more than
10 seconds; a throwing remove is itself caught and only logged. -/
def appendNextChunk (s : ClientState) (af rf : Bool) : ClientState × List Act :=
  match s.sb with
  | none => (s, [])
  | some sb =>
    if s.isAppending then (s, [])
    else if s.queue.isEmpty then (s, [])
    else if sb.updating then (s, [])
    else
      match s.queue with
      | [] => (s, [])
      | chunk :: rest =>
        let s1 := { s with isAppending := true, queue := rest }
        match appendBufferOp af with
        | Except.ok _ =>
            ({ s1 with sb := some { sb with updating := true } }, [Act.submit chunk])
        | Except.error _ =>
            let s2 := { s1 with isAppending := false }
            if sb.updating = false then
              match sb.ranges with
              | [] => (s2, [Act.submitFail chunk])
              | (a, b) :: _ =>
                  if b - a > 10 then
                    match removeOp rf with
                    | Except.ok _ =>
                        ({ s2 with sb := some { sb with updating := true } },
                          [Act.submitFail chunk, Act.removeCall a (a + 5)])
                    | Except.error _ =>
                        (s2, [Act.submitFail chunk, Act.removeFailAct a (a + 5)])
                  else (s2, [Act.submitFail chunk])
            else (s2, [Act.submitFail chunk])

/-- Source cleanup: close the WebSocket when the ref is non-null and null it;
call endOfStream when the MediaSource is open (a throw is swallowed);
drop the MediaSource, SourceBuffer, queue, in-flight flag and byte
counter; reset isConnected, isBuffering and the stats.  The last error
message is not touched. -/
def cleanup (s : ClientState) : ClientState × List Act :=
  let ws := match s.wsOpen with
    | some _ => ([Act.wsClose], ({ s with wsOpen := none } : ClientState))
    | none => ([], s)
  let eos : List Act := match ws.2.msOpen with
    | some true => [Act.endOfStream]
    | _ => []
  ({ ws.2 with
      msOpen := none
      sb := none
      queue := []
      isAppending := false
      bytesReceived := 0
      isConnected := false
      isBuffering := true
      statsBuf := 0
      statsBytes := 0 }, ws.1 ++ eos)

/-- Source disconnect simply calls cleanup. -/
def disconnect (s : ClientState) : ClientState × List Act := cleanup s

/-- The synchronous part of `connect`: cleanup, clear the error, then
fail fast when the video element is missing or MediaSource is
unsupported; otherwise allocate a fresh (not yet open) MediaSource. -/
def connect (s : ClientState) (videoOk mseOk : Bool) : ClientState × List Act :=
  let r := cleanup s
  let s1 := { r.1 with error := none }
  if videoOk = false then
    ({ s1 with error := some "Video element not found" }, r.2)
  else if mseOk = false then
    ({ s1 with error := some "MediaSource API not supported in this browser" }, r.2)
  else ({ s1 with msOpen := some false }, r.2)

/-- The auto-play buffering threshold of the updateend listener: 0.5
seconds. -/
def playThreshold : ℚ := 1 / 2

/-- The `updateend` listener.  It fires when the pending operation on
the source buffer completes; the buffer is no longer updating and its
buffered ranges are whatever the decode produced (carried by the
event).  The handler clears the in-flight flag; when the buffered
ranges are non-empty it recomputes the buffered-seconds statistic from
the first range and, when that exceeds 0.5 and the video is paused,
calls play() and clears isBuffering; finally it calls appendNextChunk. -/
def onUpdateEnd (s : ClientState) (ranges : List (ℚ × ℚ)) (af rf : Bool) :
    ClientState × List Act :=
  match s.sb with
  | none => (s, [])
  | some sb =>
    if sb.updating = false then (s, [])
    else
      let s1 := { s with
        sb := some { updating := false, ranges := ranges }
        isAppending := false }
      let stage : ClientState × List Act :=
        match ranges with
        | [] => (s1, [])
        | (a, b) :: _ =>
            let dur := b - a
            let s2 := { s1 with statsBuf := dur, statsBytes := s1.bytesReceived }
            if dur > playThreshold ∧ s2.paused = true then
              ({ s2 with paused := false, isBuffering := false }, [Act.play])
            else (s2, [])
      let r := appendNextChunk stage.1 af rf
      (r.1, Act.complete :: stage.2 ++ r.2)

/-- Source ws.onmessage: count the bytes, push the segment onto the queue,
then try to append.  Fires only while the socket is OPEN. -/
def onMessage (s : ClientState) (seg size : Nat) (af rf : Bool) :
    ClientState × List Act :=
  match s.wsOpen with
  | some true =>
      let s1 := { s with
        bytesReceived := s.bytesReceived + size
        queue := s.queue ++ [seg] }
      let r := appendNextChunk s1 af rf
      (r.1, Act.enqueue seg :: r.2)
  | _ => (s, [])

/-- Source ws.onerror: record the user-visible error message (only fires
while the WebSocket ref exists). -/
def onWsError (s : ClientState) : ClientState × List Act :=
  match s.wsOpen with
  | some _ => ({ s with error := some "WebSocket connection error" }, [])
  | none => (s, [])

/-- Source ws.onclose: the socket left the OPEN state; drop the connected
flag. -/
def onWsClose (s : ClientState) : ClientState × List Act :=
  match s.wsOpen with
  | some true => ({ s with wsOpen := some false, isConnected := false }, [])
  | _ => (s, [])

/-- Client events during one connection session: a transport message
(with the oracle bits saying whether the appendBuffer and remove calls
made while handling it throw), an updateend completion (with the
resulting buffered ranges and the oracle bits for the nested
appendNextChunk), a transport error, a transport close, and an explicit
disconnect. -/
inductive CEv where
  | msg (seg : Nat) (size : Nat) (af rf : Bool)
  | updateEnd (ranges : List (ℚ × ℚ)) (af rf : Bool)
  | wsErrorEv
  | wsCloseEv
  | disconnectEv
deriving DecidableEq, Repr

/-- One client event-loop callback. -/
def clientStep (s : ClientState) : CEv → ClientState × List Act
  | CEv.msg seg size af rf => onMessage s seg size af rf
  | CEv.updateEnd ranges af rf => onUpdateEnd s ranges af rf
  | CEv.wsErrorEv => onWsError s
  | CEv.wsCloseEv => onWsClose s
  | CEv.disconnectEv => disconnect s

/-- Run a sequence of client events, accumulating the actions. -/
def runClientFrom : ClientState → List CEv → ClientState × List Act
  | s, [] => (s, [])
  | s, e :: r =>
      let p := clientStep s e
      let q := runClientFrom p.1 r
      (q.1, p.2 ++ q.2)

/-- Client state right after a successful connect: sourceopen has fired,
the source buffer exists and is idle with nothing buffered, and the
WebSocket is OPEN. -/
def connectedInit : ClientState :=
  { wsOpen := some true
    msOpen := some true
    sb := some { updating := false, ranges := [] }
    queue := []
    isAppending := false
    bytesReceived := 0
    isConnected := true
    isBuffering := true
    error := none
    statsBuf := 0
    statsBytes := 0
    paused := true }

/-- Actions produced by a session trace from `connectedInit`. -/
def sessionActs (evs : List CEv) : List Act :=
  (runClientFrom connectedInit evs).2

/-- Client state reached by a session trace from `connectedInit`. -/
def sessionRun (evs : List CEv) : ClientState :=
  (runClientFrom connectedInit evs).1

/-! ## Client trace predicates -/

/-- Serialization check over an action trace: scanning with a busy flag,
a submit or a remove may only be issued while no operation is pending
(and makes one pending), and a completion callback may only fire while
one is pending (and clears it).  Returns the final busy flag, or `none`
on a violation. -/
def serialRun : Bool → List Act → Option Bool
  | b, [] => some b
  | b, Act.submit _ :: r => if b then none else serialRun true r
  | b, Act.removeCall _ _ :: r => if b then none else serialRun true r
  | b, Act.complete :: r => if b then serialRun false r else none
  | b, Act.enqueue _ :: r => serialRun b r
  | b, Act.submitFail _ :: r => serialRun b r
  | b, Act.removeFailAct _ _ :: r => serialRun b r
  | b, Act.play :: r => serialRun b r
  | b, Act.wsClose :: r => serialRun b r
  | b, Act.endOfStream :: r => serialRun b r

/-- Segments pushed onto the queue, in order. -/
def enqueuedOf (l : List Act) : List Nat :=
  l.filterMap fun a => match a with
    | Act.enqueue seg => some seg
    | _ => none

/-- Segments shifted off the queue (whether their append was accepted or
threw), in order. -/
def poppedOf (l : List Act) : List Nat :=
  l.filterMap fun a => match a with
    | Act.submit seg => some seg
    | Act.submitFail seg => some seg
    | _ => none

/-- Segments whose appendBuffer call was accepted, in order. -/
def submittedOf (l : List Act) : List Nat :=
  l.filterMap fun a => match a with
    | Act.submit seg => some seg
    | _ => none

/-- Windows passed to SourceBuffer.remove, in order. -/
def removeCallsOf (l : List Act) : List (ℚ × ℚ) :=
  l.filterMap fun a => match a with
    | Act.removeCall x y => some (x, y)
    | _ => none

/-- The busy flag of the serialization scan agrees with the source
buffer's updating flag whenever the buffer exists. -/
def busyMatch (s : ClientState) (b : Bool) : Prop :=
  ∀ sb, s.sb = some sb → b = sb.updating

/-! ## Server invariants -/

/-- The session invariant: whenever the running flag is set, the
producer handle is present. -/
def SrvInv (s : SrvState) : Prop :=
  s.cap.isRunning = true → s.cap.ffmpeg.isSome = true

theorem srvInv_init : SrvInv initServer := by
  intro h
  simp [initServer] at h

/-- The invariant only depends on the capture state. -/
theorem srvInv_cap {s t : SrvState} (hc : t.cap = s.cap) (h : SrvInv s) :
    SrvInv t := by
  intro hr
  rw [hc] at hr ⊢
  exact h hr

theorem srvInv_start {s : SrvState} (h : SrvInv s) :
    SrvInv (ScreenCapture.start s).1 := by
  unfold ScreenCapture.start
  by_cases hr : s.cap.isRunning
  · simpa [hr] using h
  · simp [hr, SrvInv]

theorem srvInv_stop {s : SrvState} (h : SrvInv s) :
    SrvInv (ScreenCapture.stop s).1 := by
  unfold ScreenCapture.stop
  cases hf : s.cap.ffmpeg with
  | none => simpa using h
  | some p =>
      intro hcontr
      simp at hcontr

theorem srvInv_step {s : SrvState} (e : SEv) (h : SrvInv s) :
    SrvInv (serverStep s e).1 := by
  cases e with
  | connect c =>
      simp only [serverStep]
      split
      · exact srvInv_cap rfl h
      · exact srvInv_cap rfl (srvInv_start (srvInv_cap rfl h))
  | closeEv c =>
      simp only [serverStep]
      split
      · exact srvInv_cap rfl (srvInv_stop (srvInv_cap rfl h))
      · exact srvInv_cap rfl h
  | errorEv c => exact srvInv_cap rfl h
  | sockClosed c => exact srvInv_cap rfl h
  | dataEv chunk => exact srvInv_cap rfl h
  | exitEv p =>
      simp only [serverStep]
      split
      · intro hr
        simp at hr
      · exact h
  | ffmpegError p =>
      simp only [serverStep]
      split
      · intro hr
        simp at hr
      · exact h

theorem srvInv_runFrom {s : SrvState} (evs : List SEv) (h : SrvInv s) :
    SrvInv (runServerFrom s evs).1 := by
  induction evs generalizing s with
  | nil => exact h
  | cons e r ih => exact ih (srvInv_step e h)

/-- Every reachable server state satisfies the session invariant. -/
theorem srvInv_run (evs : List SEv) : SrvInv (serverRun evs) :=
  srvInv_runFrom evs srvInv_init

/-! ## Server claims -/

/-- Claim C1, violated by the code: after join(0), leave(0) — whose
stop() only sends SIGTERM — and a quick join(1) before the killed
producer exits, two producer processes are alive simultaneously.  When
the killed producer's close event then fires, its handler clears the
running and capturing flags, so a further join(2) spawns a third
producer while the second is still alive — and the second is never sent
any kill signal.  So the singleton-producer invariant fails on this
schedule. -/
theorem claim_C1 :
    (serverRun [SEv.connect 0, SEv.closeEv 0, SEv.connect 1]).alive = [0, 1] ∧
    (serverRun [SEv.connect 0, SEv.closeEv 0, SEv.connect 1,
      SEv.exitEv 0, SEv.connect 2]).alive = [1, 2] ∧
    SAct.killSig 1 ∉ (runServerFrom initServer [SEv.connect 0, SEv.closeEv 0,
      SEv.connect 1, SEv.exitEv 0, SEv.connect 2]).2 ∧
    SAct.spawn 2 ∈ (runServerFrom initServer [SEv.connect 0, SEv.closeEv 0,
      SEv.connect 1, SEv.exitEv 0, SEv.connect 2]).2 := by
  decide

/-- Claim C3, counterexample: after connections 0 and 1 join and
connection 1's socket leaves the OPEN state, a fan-out of chunk 5 sends
it to connection 0 only — yet connection 1 is NOT removed from the
subscriber set by the fan-out, contradicting the claim that a connection
found closed is removed. -/
theorem claim_C3_cex :
    1 ∈ (serverRun [SEv.connect 0, SEv.connect 1, SEv.sockClosed 1, SEv.dataEv 5]).closedConns ∧
    SAct.send 0 5 ∈
      (runServerFrom initServer [SEv.connect 0, SEv.connect 1, SEv.sockClosed 1, SEv.dataEv 5]).2 ∧
    SAct.send 1 5 ∉
      (runServerFrom initServer [SEv.connect 0, SEv.connect 1, SEv.sockClosed 1, SEv.dataEv 5]).2 ∧
    1 ∈ (serverRun [SEv.connect 0, SEv.connect 1, SEv.sockClosed 1, SEv.dataEv 5]).clients := by
  decide

/-- Claim C3, amended: on each segment fan-out, every connection in the
subscriber set whose socket is still open is sent the segment, a
connection found closed is silently skipped — which never prevents
delivery to the other open subscribers — but the fan-out itself removes
nothing from the subscriber set (removal happens only through the
connection's own close/error handlers). -/
theorem claim_C3_amended (s : SrvState) (chunk : Nat)
    (hr : s.cap.isRunning = true) :
    (serverStep s (SEv.dataEv chunk)).1 = s ∧
    (∀ c, c ∈ s.clients → c ∉ s.closedConns →
        SAct.send c chunk ∈ (serverStep s (SEv.dataEv chunk)).2) ∧
    (∀ c, c ∈ s.closedConns → SAct.send c chunk ∉ (serverStep s (SEv.dataEv chunk)).2) := by
  simp only [serverStep, hr, if_true]
  refine ⟨by trivial, ?_, ?_⟩
  · intro c hc hnc
    rw [List.mem_filterMap]
    exact ⟨c, hc, by simp [hnc]⟩
  · intro c hc
    rw [List.mem_filterMap]
    rintro ⟨a, _, ha⟩
    by_cases h2 : a ∈ s.closedConns
    · simp [h2] at ha
    · simp only [h2, if_false, Option.some.injEq] at ha
      cases ha
      exact h2 hc

theorem claim_C3_amended_witness :
    (serverStep (serverRun [SEv.connect 0, SEv.connect 1, SEv.sockClosed 1])
        (SEv.dataEv 5)).1 = serverRun [SEv.connect 0, SEv.connect 1, SEv.sockClosed 1] ∧
    SAct.send 0 5 ∈
      (serverStep (serverRun [SEv.connect 0, SEv.connect 1, SEv.sockClosed 1]) (SEv.dataEv 5)).2 ∧
    SAct.send 1 5 ∉
      (serverStep (serverRun [SEv.connect 0, SEv.connect 1, SEv.sockClosed 1]) (SEv.dataEv 5)).2 :=
  ⟨(claim_C3_amended _ 5 (by decide)).1,
   (claim_C3_amended _ 5 (by decide)).2.1 0 (by decide) (by decide),
   (claim_C3_amended _ 5 (by decide)).2.2 1 (by decide)⟩

/-- Claim C4, counterexample: connection 0 joins (capture starts) and
then its error handler fires, draining the subscriber set to empty while
the session is capturing — yet `stop()` is never called: the producer
process is still alive and `isCapturing` is still set. -/
theorem claim_C4_cex :
    (serverRun [SEv.connect 0, SEv.errorEv 0]).clients = [] ∧
    (serverRun [SEv.connect 0, SEv.errorEv 0]).isCapturing = true ∧
    (serverRun [SEv.connect 0, SEv.errorEv 0]).alive = [0] ∧
    SAct.stopCall ∉ (runServerFrom initServer [SEv.connect 0, SEv.errorEv 0]).2 := by
  decide

/-- Claim C4, amended: a removal that drains the set to empty while the
session is capturing triggers `stop()` only when it happens through the
connection-close handler: capturing ends and the tracked producer is
sent SIGTERM (its actual exit is reported later by its own close
event).  The connection-error handler merely deletes the connection
from the set and never calls `stop()`, regardless of whether the set
drains to empty. -/
theorem claim_C4_amended (evs : List SEv) (c : Nat) :
    (((serverRun evs).clients.erase c).isEmpty = true →
      (serverRun evs).isCapturing = true →
      (serverStep (serverRun evs) (SEv.closeEv c)).1.isCapturing = false ∧
      SAct.stopCall ∈ (serverStep (serverRun evs) (SEv.closeEv c)).2 ∧
      (∀ p, (serverRun evs).cap.ffmpeg = some p →
        SAct.killSig p ∈ (serverStep (serverRun evs) (SEv.closeEv c)).2)) ∧
    (∀ t : SrvState,
      (serverStep t (SEv.errorEv c)).1 = { t with clients := t.clients.erase c } ∧
      (serverStep t (SEv.errorEv c)).2 = []) := by
  constructor
  · intro h1 h2
    simp only [serverStep, h1, h2, Bool.and_self, if_true]
    refine ⟨by trivial, by simp, ?_⟩
    intro p hp
    simp only [ScreenCapture.stop, hp]
    simp
  · intro t
    exact ⟨rfl, rfl⟩

theorem claim_C4_amended_witness :
    (serverStep (serverRun [SEv.connect 0]) (SEv.closeEv 0)).1.isCapturing = false ∧
    SAct.stopCall ∈ (serverStep (serverRun [SEv.connect 0]) (SEv.closeEv 0)).2 ∧
    SAct.killSig 0 ∈ (serverStep (serverRun [SEv.connect 0]) (SEv.closeEv 0)).2 :=
  ⟨((claim_C4_amended [SEv.connect 0] 0).1 (by decide) (by decide)).1,
   ((claim_C4_amended [SEv.connect 0] 0).1 (by decide) (by decide)).2.1,
   ((claim_C4_amended [SEv.connect 0] 0).1 (by decide) (by decide)).2.2 0 (by decide)⟩

/-- Claim C9, counterexample: after connection 0 joins and the producer
then exits on its own, the session is idle (`isRunning = false`) but the
ffmpeg handle is still present — the close handler does not clear it,
so "handle present iff Running" fails. -/
theorem claim_C9_cex :
    ¬(((serverRun [SEv.connect 0, SEv.exitEv 0]).cap.ffmpeg.isSome = true) ↔
      ((serverRun [SEv.connect 0, SEv.exitEv 0]).cap.isRunning = true)) := by
  decide

/-- Claim C9, amended: in every reachable state, when the session is
Running the producer handle is present; the converse fails: a producer
exit event leaves the session Idle while the handle — stale or not — is
kept unchanged, and only `stop()` clears it. -/
theorem claim_C9_amended (evs : List SEv) :
    ((serverRun evs).cap.isRunning = true →
      (serverRun evs).cap.ffmpeg.isSome = true) ∧
    (∀ p, p ∈ (serverRun evs).alive →
      (serverStep (serverRun evs) (SEv.exitEv p)).1.cap.isRunning = false ∧
      (serverStep (serverRun evs) (SEv.exitEv p)).1.cap.ffmpeg
        = (serverRun evs).cap.ffmpeg) := by
  constructor
  · exact fun hr => srvInv_run evs hr
  · intro p hp
    simp only [serverStep, hp, if_true]
    exact ⟨by trivial, by trivial⟩

theorem claim_C9_amended_witness :
    (serverRun [SEv.connect 0]).cap.ffmpeg.isSome = true ∧
    (serverStep (serverRun [SEv.connect 0]) (SEv.exitEv 0)).1.cap.isRunning = false ∧
    (serverStep (serverRun [SEv.connect 0]) (SEv.exitEv 0)).1.cap.ffmpeg
      = (serverRun [SEv.connect 0]).cap.ffmpeg :=
  ⟨(claim_C9_amended [SEv.connect 0]).1 (by decide),
   ((claim_C9_amended [SEv.connect 0]).2 0 (by decide)).1,
   ((claim_C9_amended [SEv.connect 0]).2 0 (by decide)).2⟩

theorem serialRun_append (l1 l2 : List Act) : ∀ b,
    serialRun b (l1 ++ l2) = (serialRun b l1).bind fun b1 => serialRun b1 l2 := by
  induction l1 with
  | nil => intro b; rfl
  | cons a r ih =>
      intro b
      cases a <;> simp only [List.cons_append, serialRun]
      case submit seg =>
        by_cases hb : b <;> simp [hb, ih]
      case removeCall x y =>
        by_cases hb : b <;> simp [hb, ih]
      case complete =>
        by_cases hb : b <;> simp [hb, ih]
      all_goals exact ih b

/-- appendNextChunk never touches the stats, the play state, the error
or the transport. -/
theorem appendNextChunk_frame (s : ClientState) (af rf : Bool) :
    (appendNextChunk s af rf).1.statsBuf = s.statsBuf ∧
    (appendNextChunk s af rf).1.statsBytes = s.statsBytes ∧
    (appendNextChunk s af rf).1.paused = s.paused ∧
    (appendNextChunk s af rf).1.isBuffering = s.isBuffering ∧
    (appendNextChunk s af rf).1.error = s.error ∧
    (appendNextChunk s af rf).1.wsOpen = s.wsOpen ∧
    (appendNextChunk s af rf).1.isConnected = s.isConnected ∧
    (appendNextChunk s af rf).1.bytesReceived = s.bytesReceived := by
  unfold appendNextChunk
  repeat' split
  all_goals exact ⟨rfl, rfl, rfl, rfl, rfl, rfl, rfl, rfl⟩

/-- appendNextChunk never emits enqueue or play actions. -/
theorem appendNextChunk_acts (s : ClientState) (af rf : Bool) :
    enqueuedOf (appendNextChunk s af rf).2 = [] ∧
    (appendNextChunk s af rf).2.count Act.play = 0 := by
  unfold appendNextChunk
  repeat' split
  all_goals simp [enqueuedOf]

/-- The serialization step property of appendNextChunk. -/
theorem appendNextChunk_serial (s : ClientState) (af rf : Bool) (b : Bool)
    (h : busyMatch s b) :
    ∃ b2, serialRun b (appendNextChunk s af rf).2 = some b2 ∧
      busyMatch (appendNextChunk s af rf).1 b2 := by
  unfold appendNextChunk
  split
  · exact ⟨b, rfl, h⟩
  next sb hsb =>
    split
    · exact ⟨b, rfl, h⟩
    split
    · exact ⟨b, rfl, h⟩
    split
    · exact ⟨b, rfl, h⟩
    next hnotu =>
      have hb : b = false := by
        have := h sb hsb
        simpa [Bool.not_eq_true] using this.trans (by simpa using hnotu)
      subst hb
      split
      · exact ⟨false, rfl, h⟩
      next chunk rest hq =>
        split
        · refine ⟨true, by simp [serialRun], ?_⟩
          intro sb2 h2
          injection h2 with h3
          rw [← h3]
        · split
          · split
            · refine ⟨false, by simp [serialRun], ?_⟩
              intro sb2 h2
              simp only at h2
              rw [hsb] at h2
              injection h2 with h3
              rw [← h3]
              simpa [Bool.not_eq_true] using hnotu
            · split
              · split
                · refine ⟨true, by simp [serialRun], ?_⟩
                  intro sb2 h2
                  injection h2 with h3
                  rw [← h3]
                · refine ⟨false, by simp [serialRun], ?_⟩
                  intro sb2 h2
                  simp only at h2
                  rw [hsb] at h2
                  injection h2 with h3
                  rw [← h3]
                  simpa [Bool.not_eq_true] using hnotu
              · refine ⟨false, by simp [serialRun], ?_⟩
                intro sb2 h2
                simp only at h2
                rw [hsb] at h2
                injection h2 with h3
                rw [← h3]
                simpa [Bool.not_eq_true] using hnotu
          · refine ⟨false, by simp [serialRun], ?_⟩
            intro sb2 h2
            simp only at h2
            rw [hsb] at h2
            injection h2 with h3
            rw [← h3]
            simpa [Bool.not_eq_true] using hnotu

theorem onMessage_serial (s : ClientState) (seg size : Nat) (af rf : Bool) (b : Bool)
    (h : busyMatch s b) :
    ∃ b2, serialRun b (onMessage s seg size af rf).2 = some b2 ∧
      busyMatch (onMessage s seg size af rf).1 b2 := by
  unfold onMessage
  split
  · have h1 : busyMatch { s with
        bytesReceived := s.bytesReceived + size
        queue := s.queue ++ [seg] } b := fun sb h2 => h sb h2
    obtain ⟨b2, hs, hb⟩ := appendNextChunk_serial _ af rf b h1
    exact ⟨b2, by simpa [serialRun] using hs, hb⟩
  · exact ⟨b, rfl, h⟩

theorem onUpdateEnd_serial (s : ClientState) (ranges : List (ℚ × ℚ)) (af rf : Bool)
    (b : Bool) (h : busyMatch s b) :
    ∃ b2, serialRun b (onUpdateEnd s ranges af rf).2 = some b2 ∧
      busyMatch (onUpdateEnd s ranges af rf).1 b2 := by
  unfold onUpdateEnd
  split
  · exact ⟨b, rfl, h⟩
  next sb hsb =>
    split
    · exact ⟨b, rfl, h⟩
    next hu =>
      have hb : b = true := by
        rw [h sb hsb]
        revert hu
        cases sb.updating <;> simp
      subst hb
      cases ranges with
      | nil =>
          have h1 : busyMatch { s with
              sb := some { updating := false, ranges := ([] : List (ℚ × ℚ)) }
              isAppending := false } false := by
            intro sb2 h2
            simp only at h2
            injection h2 with h3
            rw [← h3]
          obtain ⟨b2, hs, hbm⟩ := appendNextChunk_serial _ af rf false h1
          exact ⟨b2, by simpa [serialRun] using hs, hbm⟩
      | cons hd tlr =>
          obtain ⟨x, y⟩ := hd
          by_cases hcond : y - x > playThreshold ∧ s.paused = true
          · have h1 : busyMatch { s with
                sb := some { updating := false, ranges := (x, y) :: tlr }
                isAppending := false
                statsBuf := y - x
                statsBytes := s.bytesReceived
                paused := false
                isBuffering := false } false := by
              intro sb2 h2
              simp only at h2
              injection h2 with h3
              rw [← h3]
            obtain ⟨b2, hs, hbm⟩ := appendNextChunk_serial _ af rf false h1
            refine ⟨b2, ?_, ?_⟩
            · simpa [hcond, serialRun] using hs
            · simpa [hcond] using hbm
          · have h1 : busyMatch { s with
                sb := some { updating := false, ranges := (x, y) :: tlr }
                isAppending := false
                statsBuf := y - x
                statsBytes := s.bytesReceived } false := by
              intro sb2 h2
              simp only at h2
              injection h2 with h3
              rw [← h3]
            obtain ⟨b2, hs, hbm⟩ := appendNextChunk_serial _ af rf false h1
            refine ⟨b2, ?_, ?_⟩
            · simpa [hcond, serialRun] using hs
            · simpa [hcond] using hbm

theorem clientStep_serial (s : ClientState) (e : CEv) (b : Bool) (h : busyMatch s b) :
    ∃ b2, serialRun b (clientStep s e).2 = some b2 ∧
      busyMatch (clientStep s e).1 b2 := by
  cases e with
  | msg seg size af rf => exact onMessage_serial s seg size af rf b h
  | updateEnd ranges af rf => exact onUpdateEnd_serial s ranges af rf b h
  | wsErrorEv =>
      simp only [clientStep]
      unfold onWsError
      split
      · exact ⟨b, rfl, fun sb h2 => h sb h2⟩
      · exact ⟨b, rfl, h⟩
  | wsCloseEv =>
      simp only [clientStep]
      unfold onWsClose
      split
      · exact ⟨b, rfl, fun sb h2 => h sb h2⟩
      · exact ⟨b, rfl, h⟩
  | disconnectEv =>
      simp only [clientStep]
      unfold disconnect cleanup
      refine ⟨b, ?_, ?_⟩
      · cases hw : s.wsOpen with
        | none =>
            cases hm : s.msOpen with
            | none => simp [hw, hm, serialRun]
            | some mb => cases mb <;> simp [hw, hm, serialRun]
        | some wb =>
            cases hm : s.msOpen with
            | none => simp [hw, hm, serialRun]
            | some mb => cases mb <;> simp [hw, hm, serialRun]
      · intro sb2 h2
        cases hw : s.wsOpen <;> rw [hw] at h2 <;> simp at h2

theorem runClient_serial (evs : List CEv) : ∀ s b, busyMatch s b →
    ∃ b2, serialRun b (runClientFrom s evs).2 = some b2 ∧
      busyMatch (runClientFrom s evs).1 b2 := by
  induction evs with
  | nil => exact fun s b h => ⟨b, rfl, h⟩
  | cons e r ih =>
      intro s b h
      obtain ⟨b1, h1, hb1⟩ := clientStep_serial s e b h
      obtain ⟨b2, h2, hb2⟩ := ih (clientStep s e).1 b1 hb1
      refine ⟨b2, ?_, hb2⟩
      simp only [runClientFrom]
      rw [serialRun_append, h1]
      exact h2

theorem poppedOf_append (l1 l2 : List Act) :
    poppedOf (l1 ++ l2) = poppedOf l1 ++ poppedOf l2 := by
  simp [poppedOf]

theorem enqueuedOf_append (l1 l2 : List Act) :
    enqueuedOf (l1 ++ l2) = enqueuedOf l1 ++ enqueuedOf l2 := by
  simp [enqueuedOf]

/-- appendNextChunk removes at most the head of the queue, and only by
handing it to appendBuffer (successfully or not). -/
theorem appendNextChunk_queue (s : ClientState) (af rf : Bool) :
    poppedOf (appendNextChunk s af rf).2 ++ (appendNextChunk s af rf).1.queue
      = s.queue := by
  unfold appendNextChunk
  repeat' split
  all_goals simp_all [poppedOf]

/-- When no operation on the buffer is pending, appendNextChunk while an
operation is in flight is a no-op with no actions. -/
theorem appendNextChunk_busy (s : ClientState) (sb : SB) (af rf : Bool)
    (hsb : s.sb = some sb) (hu : sb.updating = true) :
    appendNextChunk s af rf = (s, []) := by
  simp [appendNextChunk, hsb, hu]

/-- Accounting identity for one non-disconnect event: the segments it
pops, followed by the remaining queue, are exactly the old queue
followed by the segments it enqueues. -/
theorem clientStep_queue (s : ClientState) (e : CEv) (hne : e ≠ CEv.disconnectEv) :
    poppedOf (clientStep s e).2 ++ (clientStep s e).1.queue
      = s.queue ++ enqueuedOf (clientStep s e).2 := by
  cases e with
  | msg seg size af rf =>
      simp only [clientStep]
      unfold onMessage
      split
      next hws =>
        have hq := appendNextChunk_queue
          { s with bytesReceived := s.bytesReceived + size
                   queue := s.queue ++ [seg] } af rf
        have ha := (appendNextChunk_acts
          { s with bytesReceived := s.bytesReceived + size
                   queue := s.queue ++ [seg] } af rf).1
        simp only [poppedOf, enqueuedOf, List.filterMap_cons] at hq ha ⊢
        rw [ha]
        simpa using hq
      · simp [poppedOf, enqueuedOf]
  | updateEnd ranges af rf =>
      simp only [clientStep]
      unfold onUpdateEnd
      split
      · simp [poppedOf, enqueuedOf]
      next sb hsb =>
        split
        · simp [poppedOf, enqueuedOf]
        next hu =>
          cases ranges with
          | nil =>
              have hq := appendNextChunk_queue { s with
                sb := some { updating := false, ranges := ([] : List (ℚ × ℚ)) }
                isAppending := false } af rf
              have ha := (appendNextChunk_acts { s with
                sb := some { updating := false, ranges := ([] : List (ℚ × ℚ)) }
                isAppending := false } af rf).1
              simp only [poppedOf, enqueuedOf, List.filterMap_cons,
                List.filterMap_append, List.nil_append] at hq ha ⊢
              rw [ha]
              simpa using hq
          | cons hd tlr =>
              obtain ⟨x, y⟩ := hd
              by_cases hcond : y - x > playThreshold ∧ s.paused = true
              · have hq := appendNextChunk_queue { s with
                  sb := some { updating := false, ranges := (x, y) :: tlr }
                  isAppending := false
                  statsBuf := y - x
                  statsBytes := s.bytesReceived
                  paused := false
                  isBuffering := false } af rf
                have ha := (appendNextChunk_acts { s with
                  sb := some { updating := false, ranges := (x, y) :: tlr }
                  isAppending := false
                  statsBuf := y - x
                  statsBytes := s.bytesReceived
                  paused := false
                  isBuffering := false } af rf).1
                simp only [hcond, if_true, poppedOf, enqueuedOf, List.filterMap_cons,
                  List.filterMap_append, and_self] at hq ha ⊢
                rw [ha]
                simpa using hq
              · have hq := appendNextChunk_queue { s with
                  sb := some { updating := false, ranges := (x, y) :: tlr }
                  isAppending := false
                  statsBuf := y - x
                  statsBytes := s.bytesReceived } af rf
                have ha := (appendNextChunk_acts { s with
                  sb := some { updating := false, ranges := (x, y) :: tlr }
                  isAppending := false
                  statsBuf := y - x
                  statsBytes := s.bytesReceived } af rf).1
                simp only [hcond, if_false, poppedOf, enqueuedOf, List.filterMap_cons,
                  List.filterMap_append] at hq ha ⊢
                rw [ha]
                simpa using hq
  | wsErrorEv =>
      simp only [clientStep]
      unfold onWsError
      split <;> simp [poppedOf, enqueuedOf]
  | wsCloseEv =>
      simp only [clientStep]
      unfold onWsClose
      split <;> simp [poppedOf, enqueuedOf]
  | disconnectEv => exact absurd rfl hne

/-- Accounting identity along a whole disconnect-free session trace. -/
theorem runClient_queue : ∀ (evs : List CEv), CEv.disconnectEv ∉ evs → ∀ s : ClientState,
    poppedOf (runClientFrom s evs).2 ++ (runClientFrom s evs).1.queue
      = s.queue ++ enqueuedOf (runClientFrom s evs).2 := by
  intro evs
  induction evs with
  | nil => intro _ s; simp [runClientFrom, poppedOf, enqueuedOf]
  | cons e r ih =>
      intro hnd s
      have hne : e ≠ CEv.disconnectEv := fun hc => hnd (hc ▸ List.mem_cons_self e r)
      have hr : CEv.disconnectEv ∉ r := fun hm => hnd (List.mem_cons_of_mem e hm)
      have h1 := clientStep_queue s e hne
      have h2 := ih hr (clientStep s e).1
      simp only [runClientFrom]
      rw [poppedOf_append, enqueuedOf_append, List.append_assoc, h2,
        ← List.append_assoc, h1, List.append_assoc]

/-- When no appendBuffer call threw, the popped and the accepted
segments coincide. -/
theorem submittedOf_eq_poppedOf : ∀ l : List Act,
    (∀ seg, Act.submitFail seg ∉ l) → submittedOf l = poppedOf l := by
  intro l
  induction l with
  | nil => intro _; rfl
  | cons a r ih =>
      intro h
      have h2 : ∀ seg, Act.submitFail seg ∉ r :=
        fun seg hm => h seg (List.mem_cons_of_mem a hm)
      have h3 := ih h2
      cases a with
      | submitFail seg => exact absurd (List.mem_cons_self _ _) (h seg)
      | submit seg =>
          simp only [submittedOf, poppedOf, List.filterMap_cons] at h3 ⊢
          rw [h3]
      | enqueue seg =>
          simpa only [submittedOf, poppedOf, List.filterMap_cons] using h3
      | removeCall x y =>
          simpa only [submittedOf, poppedOf, List.filterMap_cons] using h3
      | removeFailAct x y =>
          simpa only [submittedOf, poppedOf, List.filterMap_cons] using h3
      | complete =>
          simpa only [submittedOf, poppedOf, List.filterMap_cons] using h3
      | play =>
          simpa only [submittedOf, poppedOf, List.filterMap_cons] using h3
      | wsClose =>
          simpa only [submittedOf, poppedOf, List.filterMap_cons] using h3
      | endOfStream =>
          simpa only [submittedOf, poppedOf, List.filterMap_cons] using h3

/-- cleanup leaves the error observable untouched. -/
theorem cleanup_error (s : ClientState) : (cleanup s).1.error = s.error := by
  unfold cleanup
  cases hw : s.wsOpen <;> simp [hw]

/-- onMessage never clears or changes the error observable. -/
theorem onMessage_error (s : ClientState) (seg size : Nat) (af rf : Bool) :
    (onMessage s seg size af rf).1.error = s.error := by
  unfold onMessage
  split
  · exact (appendNextChunk_frame _ af rf).2.2.2.2.1
  · rfl

/-- onUpdateEnd never clears or changes the error observable. -/
theorem onUpdateEnd_error (s : ClientState) (ranges : List (ℚ × ℚ)) (af rf : Bool) :
    (onUpdateEnd s ranges af rf).1.error = s.error := by
  unfold onUpdateEnd
  split
  · rfl
  next sb hsb =>
    split
    · rfl
    next hu =>
      cases ranges with
      | nil => exact (appendNextChunk_frame _ af rf).2.2.2.2.1
      | cons hd tlr =>
          obtain ⟨x, y⟩ := hd
          by_cases hcond : y - x > playThreshold ∧ s.paused = true
          · simp only [hcond, if_true, and_self]
            exact (appendNextChunk_frame _ af rf).2.2.2.2.1
          · simp only [hcond, if_false]
            exact (appendNextChunk_frame _ af rf).2.2.2.2.1

/-- cleanup computed in closed form. -/
theorem cleanup_state (s : ClientState) :
    (cleanup s).1 = { s with
      wsOpen := none
      msOpen := none
      sb := none
      queue := []
      isAppending := false
      bytesReceived := 0
      isConnected := false
      isBuffering := true
      statsBuf := 0
      statsBytes := 0 } := by
  unfold cleanup
  cases hw : s.wsOpen <;> simp [hw]

/-- disconnect computed in closed form. -/
theorem disconnect_state (s : ClientState) :
    (disconnect s).1 = { s with
      wsOpen := none
      msOpen := none
      sb := none
      queue := []
      isAppending := false
      bytesReceived := 0
      isConnected := false
      isBuffering := true
      statsBuf := 0
      statsBytes := 0 } := cleanup_state s

/-- cleanup closes the transport when the WebSocket ref is non-null. -/
theorem cleanup_acts_ws (s : ClientState) (h : s.wsOpen.isSome = true) :
    Act.wsClose ∈ (cleanup s).2 := by
  unfold cleanup
  cases hw : s.wsOpen with
  | none => rw [hw] at h; simp at h
  | some wb => simp

/-- cleanup signals end-of-stream when the MediaSource is open. -/
theorem cleanup_acts_eos (s : ClientState) (h : s.msOpen = some true) :
    Act.endOfStream ∈ (cleanup s).2 := by
  unfold cleanup
  cases hw : s.wsOpen <;> simp [h]

/-! ## Client claims -/

/-- Claim C2: for every sequence of session events, the serialization
scan of the emitted actions never fails: a submit (or a remove) is only
ever issued while no operation is outstanding, and an outstanding
operation is only discharged by its completion callback — so no second
append is submitted before the prior one's completion callback fires.
Moreover, a message arriving while an operation is pending only queues
the segment and submits nothing. -/
theorem claim_C2 :
    (∀ evs : List CEv, (serialRun false (sessionActs evs)).isSome = true) ∧
    (∀ (s : ClientState) (sb : SB) (seg size : Nat) (af rf : Bool),
      s.sb = some sb → sb.updating = true → s.wsOpen = some true →
      (onMessage s seg size af rf).2 = [Act.enqueue seg] ∧
      (onMessage s seg size af rf).1.queue = s.queue ++ [seg]) := by
  constructor
  · intro evs
    obtain ⟨b2, h2, _⟩ := runClient_serial evs connectedInit false (by
      intro sb h
      have h2 : (some { updating := false, ranges := ([] : List (ℚ × ℚ)) } : Option SB)
          = some sb := h
      injection h2 with h3
      rw [← h3])
    simp [sessionActs, h2]
  · intro s sb seg size af rf hsb hu hws
    simp only [onMessage, hws]
    rw [appendNextChunk_busy { s with
        wsOpen := some true
        bytesReceived := s.bytesReceived + size
        queue := s.queue ++ [seg] } sb af rf hsb hu]
    exact ⟨rfl, rfl⟩

theorem claim_C2_witness :
    (serialRun false (sessionActs
      [CEv.msg 1 5 false false, CEv.msg 2 5 false false])).isSome = true ∧
    (onMessage (sessionRun [CEv.msg 1 5 false false]) 2 5 false false).2
      = [Act.enqueue 2] :=
  ⟨claim_C2.1 [CEv.msg 1 5 false false, CEv.msg 2 5 false false],
   (claim_C2.2 (sessionRun [CEv.msg 1 5 false false])
      { updating := true, ranges := [] } 2 5 false false
      (by decide) (by decide) (by decide)).1⟩

/-- Claim C5, counterexample: a single arriving segment 42 whose
appendBuffer call throws is enqueued, shifted off the queue, and then
discarded entirely: it is never submitted successfully, it is no longer
queued, and no eviction of buffered data happened — so a
queued-but-undelivered segment IS dropped, against the claim that the
only data ever discarded is already-buffered data. -/
theorem claim_C5_cex :
    enqueuedOf (sessionActs [CEv.msg 42 7 true false]) = [42] ∧
    submittedOf (sessionActs [CEv.msg 42 7 true false]) = [] ∧
    (sessionRun [CEv.msg 42 7 true false]).queue = [] ∧
    removeCallsOf (sessionActs [CEv.msg 42 7 true false]) = [] := by
  decide

/-- Claim C5, amended: along any disconnect-free session trace, the
segments shifted off the queue (in order), followed by the still-queued
segments, are exactly the arrival sequence — strict arrival order and
no loss except that a segment whose own appendBuffer call throws is
discarded at that point; when no append throws, the successfully
delivered segments plus the still-queued ones are exactly the arrivals,
so nothing is dropped at all. -/
theorem claim_C5_amended (evs : List CEv) (hnd : CEv.disconnectEv ∉ evs) :
    poppedOf (sessionActs evs) ++ (sessionRun evs).queue
      = enqueuedOf (sessionActs evs) ∧
    ((∀ seg, Act.submitFail seg ∉ sessionActs evs) →
      submittedOf (sessionActs evs) ++ (sessionRun evs).queue
        = enqueuedOf (sessionActs evs)) := by
  have h := runClient_queue evs hnd connectedInit
  constructor
  · simpa [sessionActs, sessionRun, connectedInit] using h
  · intro hnf
    rw [submittedOf_eq_poppedOf _ hnf]
    simpa [sessionActs, sessionRun, connectedInit] using h

theorem claim_C5_amended_witness :
    poppedOf (sessionActs [CEv.msg 1 5 false false])
        ++ (sessionRun [CEv.msg 1 5 false false]).queue
      = enqueuedOf (sessionActs [CEv.msg 1 5 false false]) :=
  (claim_C5_amended [CEv.msg 1 5 false false] (by decide)).1

/-- Claim C6, counterexample: segment 1 is appended and buffers the
range (0, 8); segment 2's appendBuffer call then throws — yet no
eviction is attempted at all, because the oldest buffered range spans
only 8 seconds, not more than 10: the claim that a fixed 5-second
window is evicted whenever an append fails is false. -/
theorem claim_C6_cex :
    Act.submitFail 2 ∈ (appendNextChunk { connectedInit with
        sb := some { updating := false, ranges := [((0 : ℚ), (8 : ℚ))] }
        queue := [2] } true false).2 ∧
    removeCallsOf (appendNextChunk { connectedInit with
        sb := some { updating := false, ranges := [((0 : ℚ), (8 : ℚ))] }
        queue := [2] } true false).2 = [] := by
  norm_num [appendNextChunk, appendBufferOp, connectedInit, removeCallsOf]

/-- Claim C6, amended: when an appendBuffer call throws, the failure is
contained — the in-flight flag is cleared, the error observable and the
transport are untouched, and the failing segment's slot in the queue is
consumed so delivery resumes with the next tryDeliver.  The 5-second
eviction `remove(start, start + 5)` of the oldest buffered range is
attempted only when that range spans more than 10 seconds; when the
remove call itself throws, that failure is also contained and the
buffer is left unchanged. -/
theorem claim_C6_amended (s : ClientState) (sb : SB) (c : Nat) (rest : List Nat)
    (x y : ℚ) (tl : List (ℚ × ℚ)) (rf : Bool)
    (hsb : s.sb = some sb) (hu : sb.updating = false)
    (hr : sb.ranges = (x, y) :: tl)
    (hia : s.isAppending = false) (hq : s.queue = c :: rest) :
    (appendNextChunk s true rf).1.isAppending = false ∧
    (appendNextChunk s true rf).1.queue = rest ∧
    (appendNextChunk s true rf).1.error = s.error ∧
    (appendNextChunk s true rf).1.wsOpen = s.wsOpen ∧
    (appendNextChunk s true rf).1.isConnected = s.isConnected ∧
    (y - x > 10 → rf = false →
      (appendNextChunk s true rf).2 = [Act.submitFail c, Act.removeCall x (x + 5)] ∧
      (appendNextChunk s true rf).1.sb = some { sb with updating := true }) ∧
    (y - x > 10 → rf = true →
      (appendNextChunk s true rf).2 = [Act.submitFail c, Act.removeFailAct x (x + 5)] ∧
      (appendNextChunk s true rf).1.sb = some sb) ∧
    (¬(y - x > 10) →
      (appendNextChunk s true rf).2 = [Act.submitFail c] ∧
      (appendNextChunk s true rf).1.sb = some sb) := by
  simp only [appendNextChunk, hsb, hia, hq, hu, hr, appendBufferOp, removeOp,
    Bool.false_eq_true, if_false, List.isEmpty_cons, eq_self_iff_true, if_true]
  cases rf with
  | false =>
      by_cases h10 : y - x > 10
      · simp only [h10, if_true, Bool.false_eq_true, if_false, eq_self_iff_true]
        refine ⟨by trivial, by trivial, by trivial, by trivial, by trivial, ?_, ?_, ?_⟩
        · intro _ _
          exact ⟨by trivial, by trivial⟩
        · intro _ hrf
          exact hrf.elim
        · intro hn
          exact absurd trivial hn
      · simp only [h10, if_false]
        refine ⟨by trivial, by trivial, by trivial, by trivial, by trivial, ?_, ?_, ?_⟩
        · intro h _
          exact h.elim
        · intro h _
          exact h.elim
        · intro _
          exact ⟨by trivial, by trivial⟩
  | true =>
      by_cases h10 : y - x > 10
      · simp only [h10, if_true, eq_self_iff_true, Bool.true_eq_false, if_false]
        refine ⟨by trivial, by trivial, by trivial, by trivial, by trivial, ?_, ?_, ?_⟩
        · intro _ hrf
          exact hrf.elim
        · intro _ _
          exact ⟨by trivial, by trivial⟩
        · intro hn
          exact absurd trivial hn
      · simp only [h10, if_false]
        refine ⟨by trivial, by trivial, by trivial, by trivial, by trivial, ?_, ?_, ?_⟩
        · intro h _
          exact h.elim
        · intro h _
          exact h.elim
        · intro _
          exact ⟨by trivial, by trivial⟩

theorem claim_C6_amended_witness :
    (appendNextChunk { connectedInit with
        sb := some { updating := false, ranges := [((0 : ℚ), (12 : ℚ))] }
        queue := [7] } true false).2
      = [Act.submitFail 7, Act.removeCall 0 (0 + 5)] :=
  ((claim_C6_amended { connectedInit with
      sb := some { updating := false, ranges := [((0 : ℚ), (12 : ℚ))] }
      queue := [7] }
    { updating := false, ranges := [((0 : ℚ), (12 : ℚ))] } 7 [] 0 12 [] false
    rfl rfl rfl rfl rfl).2.2.2.2.2.1 (by norm_num) rfl).1

/-- Claim C7: on each completion callback (with the buffer non-empty),
the buffered-seconds statistic is recomputed as the extent of the first
buffered range; when it exceeds the 0.5-second threshold while the
video is paused, play() is called exactly once and the state moves out
of Buffering; when playback is already active (video not paused), no
play() is issued and isBuffering is left unchanged — so the transition
fires once per crossing, not on every subsequent completion. -/
theorem claim_C7 (s : ClientState) (sb : SB) (x y : ℚ) (tl : List (ℚ × ℚ))
    (af rf : Bool) (hsb : s.sb = some sb) (hu : sb.updating = true) :
    (onUpdateEnd s ((x, y) :: tl) af rf).1.statsBuf = y - x ∧
    (y - x > playThreshold → s.paused = true →
      (onUpdateEnd s ((x, y) :: tl) af rf).1.paused = false ∧
      (onUpdateEnd s ((x, y) :: tl) af rf).1.isBuffering = false ∧
      (onUpdateEnd s ((x, y) :: tl) af rf).2.count Act.play = 1) ∧
    (s.paused = false →
      (onUpdateEnd s ((x, y) :: tl) af rf).1.paused = false ∧
      (onUpdateEnd s ((x, y) :: tl) af rf).1.isBuffering = s.isBuffering ∧
      (onUpdateEnd s ((x, y) :: tl) af rf).2.count Act.play = 0) := by
  simp only [onUpdateEnd, hsb, hu, Bool.true_eq_false, if_false]
  refine ⟨?_, ?_, ?_⟩
  · by_cases hcond : y - x > playThreshold ∧ s.paused = true
    · simp only [hcond, and_self, if_true]
      exact (appendNextChunk_frame _ af rf).1
    · simp only [hcond, if_false]
      exact (appendNextChunk_frame _ af rf).1
  · intro h1 h2
    have hcond : y - x > playThreshold ∧ s.paused = true := ⟨h1, h2⟩
    simp only [hcond, and_self, if_true]
    have hc := (appendNextChunk_acts { s with
      sb := some { updating := false, ranges := (x, y) :: tl }
      isAppending := false
      statsBuf := y - x
      statsBytes := s.bytesReceived
      paused := false
      isBuffering := false } af rf).2
    refine ⟨(appendNextChunk_frame _ af rf).2.2.1,
      (appendNextChunk_frame _ af rf).2.2.2.1, ?_⟩
    simp [List.count_cons, List.count_append, hc]
  · intro hp
    have hcond : ¬(y - x > playThreshold ∧ s.paused = true) := by
      simp [hp]
    simp only [hcond, if_false]
    have hc := (appendNextChunk_acts { s with
      sb := some { updating := false, ranges := (x, y) :: tl }
      isAppending := false
      statsBuf := y - x
      statsBytes := s.bytesReceived } af rf).2
    refine ⟨(appendNextChunk_frame _ af rf).2.2.1.trans hp,
      (appendNextChunk_frame _ af rf).2.2.2.1, ?_⟩
    simp [List.count_cons, List.count_append, hc]

theorem claim_C7_witness :
    (onUpdateEnd (sessionRun [CEv.msg 1 5 false false])
        [((0 : ℚ), (1 : ℚ))] false false).1.paused = false ∧
    (onUpdateEnd (sessionRun [CEv.msg 1 5 false false])
        [((0 : ℚ), (1 : ℚ))] false false).1.isBuffering = false ∧
    (onUpdateEnd (sessionRun [CEv.msg 1 5 false false])
        [((0 : ℚ), (1 : ℚ))] false false).2.count Act.play = 1 :=
  (claim_C7 (sessionRun [CEv.msg 1 5 false false]) { updating := true, ranges := [] }
    0 1 [] false false (by decide) (by decide)).2.1 (by norm_num [playThreshold]) (by decide)

/-- Claim C8: `disconnect()` is idempotent teardown — from any client
state it leaves the client disconnected with the transport ref, the
MediaSource, the source buffer, the queue, the in-flight flag, the byte
counter and both statistics cleared; it closes the transport when the
ref is present and signals end-of-stream when the MediaSource is open;
and applying it a second time yields the same state and performs no
further actions (so no error can arise). -/
theorem claim_C8 (s : ClientState) :
    (disconnect s).1.isConnected = false ∧
    (disconnect s).1.wsOpen = none ∧
    (disconnect s).1.msOpen = none ∧
    (disconnect s).1.sb = none ∧
    (disconnect s).1.queue = [] ∧
    (disconnect s).1.isAppending = false ∧
    (disconnect s).1.bytesReceived = 0 ∧
    (disconnect s).1.statsBuf = 0 ∧
    (disconnect s).1.statsBytes = 0 ∧
    (s.wsOpen.isSome = true → Act.wsClose ∈ (disconnect s).2) ∧
    (s.msOpen = some true → Act.endOfStream ∈ (disconnect s).2) ∧
    disconnect (disconnect s).1 = ((disconnect s).1, []) := by
  refine ⟨?_, ?_, ?_, ?_, ?_, ?_, ?_, ?_, ?_, ?_, ?_, ?_⟩
  · rw [disconnect_state]
  · rw [disconnect_state]
  · rw [disconnect_state]
  · rw [disconnect_state]
  · rw [disconnect_state]
  · rw [disconnect_state]
  · rw [disconnect_state]
  · rw [disconnect_state]
  · rw [disconnect_state]
  · intro h
    exact cleanup_acts_ws s h
  · intro h
    exact cleanup_acts_eos s h
  · rw [disconnect_state]
    rfl

theorem claim_C8_witness :
    (disconnect connectedInit).1.isConnected = false ∧
    Act.wsClose ∈ (disconnect connectedInit).2 ∧
    Act.endOfStream ∈ (disconnect connectedInit).2 ∧
    disconnect (disconnect connectedInit).1 = ((disconnect connectedInit).1, []) :=
  ⟨(claim_C8 connectedInit).1,
   (claim_C8 connectedInit).2.2.2.2.2.2.2.2.2.1 (by decide),
   (claim_C8 connectedInit).2.2.2.2.2.2.2.2.2.2.1 (by decide),
   (claim_C8 connectedInit).2.2.2.2.2.2.2.2.2.2.2⟩

/-- Claim C10: `disconnect()` leaves the last error message unchanged —
a client that entered an error state and then disconnects still exposes
the old error while disconnected; the synchronous part of `connect()`
resets the error to null; and no session event ever resets the error to
null (the only error mutation a session event makes is the transport
error handler recording its message). -/
theorem claim_C10 :
    (∀ s : ClientState, (disconnect s).1.error = s.error) ∧
    (∀ (s : ClientState) (m : String), s.error = some m →
      (disconnect s).1.error = some m ∧ (disconnect s).1.isConnected = false) ∧
    (∀ s : ClientState, (connect s true true).1.error = none) ∧
    (∀ (s : ClientState) (e : CEv),
      (clientStep s e).1.error = s.error ∨
      (clientStep s e).1.error = some "WebSocket connection error") := by
  refine ⟨fun s => cleanup_error s, ?_, ?_, ?_⟩
  · intro s m hm
    exact ⟨(cleanup_error s).trans hm, rfl⟩
  · intro s
    rfl
  · intro s e
    cases e with
    | msg seg size af rf => exact Or.inl (onMessage_error s seg size af rf)
    | updateEnd ranges af rf => exact Or.inl (onUpdateEnd_error s ranges af rf)
    | wsErrorEv =>
        simp only [clientStep]
        unfold onWsError
        split
        · exact Or.inr rfl
        · exact Or.inl rfl
    | wsCloseEv =>
        simp only [clientStep]
        unfold onWsClose
        split
        · exact Or.inl rfl
        · exact Or.inl rfl
    | disconnectEv => exact Or.inl (cleanup_error s)

theorem claim_C10_witness :
    (disconnect { connectedInit with error := some "MediaSource error" }).1.error
      = some "MediaSource error" ∧
    (disconnect { connectedInit with error := some "MediaSource error" }).1.isConnected
      = false :=
  claim_C10.2.1 { connectedInit with error := some "MediaSource error" }
    "MediaSource error" rfl

end RetroTournament
